import Mathlib

/-
  Verification development for the rock_yoko club database application
  (src/app.py): a spreadsheet-backed roster/performance browser.

  The embedding models, faithfully to the source:
  * the worksheet-level data access layer (`SheetManager`): `get_next_id`,
    `add_row`, `update_row`, `delete_row`, `bulk_insert_performances`;
  * the enrichment join built in `main` (pandas left merges plus the
    `fillna` sentinel substitutions);
  * the filter steps applied to the enriched frame (uso / year / event /
    keyword / part / circle), including the band-group retention logic;
  * the band grouping and its final descending sort;
  * the band registration flow of `render_register_mode`.

  Machine-level remarks:
  * gspread worksheets are modelled as a grid of cells (`Worksheet.cells`),
    whose first row is the header row, matching `row_values(1)` /
    `col_values(1)` usage in the source.
  * pandas NaN (produced by a failed left join) is modelled with `Option`:
    `none` is NaN.  `fillna` is `Option.getD`.  A pandas comparison
    `column == v` is `· == some v` (NaN compares unequal to everything),
    and `column != True` is `!(· == some true)`.
  * `Series.str.contains(pat)` uses regular-expression search
    (`regex=True` is the pandas default).  The model `reSearch` implements
    Python `re.search` semantics for the fragment of patterns made of
    literal characters and the '.' wildcard; patterns using other
    metacharacters are outside the model's scope (the application's fixed
    part names contain none, and the keyword claim is settled relative to
    this fragment).
-/

/-- A spreadsheet cell value as handed to / received from gspread. -/
inductive Value where
  | str (s : String)
  | int (n : Int)
  | bool (b : Bool)
deriving DecidableEq

/-- How a cell value reads back as a string (`col_values` / `row_values`
return display strings). -/
def valueToStr : Value → String
  | .str s => s
  | .int n => toString n
  | .bool b => if b then "TRUE" else "FALSE"

/-- A worksheet: a grid of cells whose first row is the header row,
as in the source's `row_values(1)` / `col_values(1)` access pattern. -/
structure Worksheet where
  cells : List (List Value)
deriving DecidableEq

/-- `ws.row_values(1)`: the header labels of a worksheet. -/
def header (ws : Worksheet) : List String :=
  (ws.cells.headD []).map valueToStr

/-- Column 1 of the worksheet as display strings, header cell included
(this is what `ws.find(..., in_column=1)` scans). -/
def col1Strs (ws : Worksheet) : List String :=
  ws.cells.map (fun row => valueToStr (row.headD (.str "")))

/-- The id column of the table proper: column 1 of the data rows,
i.e. `col_values(1)[1:]` in the source. -/
def idCol (ws : Worksheet) : List String :=
  ws.cells.tail.map (fun row => valueToStr (row.headD (.str "")))

/-- `[int(i) for i in ids if str(i).isdigit()]` over `col_values(1)[1:]`:
the numeric ids currently present in the table.  `String.toNat?` succeeds
exactly on nonempty all-digit strings, matching `str.isdigit` plus `int`. -/
def numericIds (ws : Worksheet) : List Nat :=
  (idCol ws).filterMap String.toNat?

/-- `SheetManager.get_next_id`: `max(valid_ids) + 1 if valid_ids else 1`. -/
def get_next_id (ws : Worksheet) : Nat :=
  if numericIds ws = [] then 1 else (numericIds ws).foldl Nat.max 0 + 1

/-- Python dicts are modelled as association lists; lookup takes the
first binding. -/
def dictGet (d : List (String × Value)) (k : String) : Option Value :=
  (d.find? (fun kv => kv.1 == k)).map (fun kv => kv.2)

/-- `d[k] = v` on a Python dict: replace the binding if the key is
present, otherwise append it. -/
def dictSet (d : List (String × Value)) (k : String) (v : Value) :
    List (String × Value) :=
  if d.any (fun kv => kv.1 == k) then
    d.map (fun kv => if kv.1 == k then (k, v) else kv)
  else d ++ [(k, v)]

/-- `SheetManager._bool_to_str` applied where the source applies it:
`add_row` and `update_row` stringify boolean values before writing. -/
def coerceVal : Value → Value
  | .bool b => .str (if b then "TRUE" else "FALSE")
  | v => v

/-- `SheetManager.add_row`: allocate the next id (overwriting any id in
`data_dict`), lay the dict out along the header, append the row.
Returns the updated worksheet and the allocated id. -/
def add_row (ws : Worksheet) (data_dict : List (String × Value)) :
    Worksheet × Nat :=
  let new_id := get_next_id ws
  let d := dictSet data_dict "id" (.int (new_id : Int))
  let row := (header ws).map (fun h => coerceVal ((dictGet d h).getD (.str "")))
  ({ cells := ws.cells ++ [row] }, new_id)

/-- The `for i, r in enumerate(rows_list)` loop of
`bulk_insert_performances`: row `i` gets id `start + i`, and each row is
laid out along the header via `r.get(h, "")` (note: no boolean coercion
on this code path, matching the source). -/
def buildBulkRows (hd : List String) (start : Nat) :
    List (List (String × Value)) → List (List Value)
  | [] => []
  | r :: rs =>
    ((hd.map (fun h =>
        (dictGet (dictSet r "id" (.int (start : Int))) h).getD (.str "")))
      : List Value) :: buildBulkRows hd (start + 1) rs

/-- `SheetManager.bulk_insert_performances`: `if not rows_list: return`,
otherwise append all rows with consecutive ids from `get_next_id`. -/
def bulk_insert_performances (ws : Worksheet)
    (rows_list : List (List (String × Value))) : Worksheet :=
  if rows_list.isEmpty then ws
  else { cells := ws.cells ++ buildBulkRows (header ws) (get_next_id ws) rows_list }

/-- `ws.find(target, in_column=1)`: index of the first cell of column 1
whose display string equals the target (0-based; the header row is
index 0, as gspread scans the whole column). -/
def findPos (t : String) : List String → Option Nat
  | [] => none
  | s :: rest => if s == t then some 0 else (findPos t rest).map (· + 1)

/-- One `ws.update_cell(row, col, val)` (0-based indices here). -/
def updateCell (ws : Worksheet) (r c : Nat) (v : Value) : Worksheet :=
  { cells := ws.cells.set r ((ws.cells.getD r []).set c v) }

/-- `SheetManager.update_row`: find the row by id string in column 1;
if absent return `false` with the sheet untouched, otherwise write every
update whose key occurs in the header (booleans stringified) and
return `true`. -/
def update_row (ws : Worksheet) (target_id : Int)
    (update_dict : List (String × Value)) : Worksheet × Bool :=
  match findPos (toString target_id) (col1Strs ws) with
  | none => (ws, false)
  | some rowIdx =>
    let hd := header ws
    let ws' := update_dict.foldl (fun acc kv =>
      if kv.1 ∈ hd then updateCell acc rowIdx (hd.indexOf kv.1) (coerceVal kv.2)
      else acc) ws
    (ws', true)

/-- `SheetManager.delete_row`: find the row by id string in column 1;
delete it and return `true`, or return `false` leaving the sheet
untouched. -/
def delete_row (ws : Worksheet) (target_id : Int) : Worksheet × Bool :=
  match findPos (toString target_id) (col1Strs ws) with
  | some rowIdx => ({ cells := ws.cells.eraseIdx rowIdx }, true)
  | none => (ws, false)

/-- A member record after `load_all_data`/`clean_df`: ids and years are
coerced to integers, `is_uso` to a boolean; everything else is a string. -/
structure Member where
  id : Int
  name : String
  year : Int
  part : String
  sub_parts : String
  circle : String
  role : String
  is_uso : Bool
deriving DecidableEq

/-- A band record after `clean_df`. -/
structure Band where
  id : Int
  year : Int
  event_type : String
  band_name : String
  artist_name : String
  song_name : String
  description : String
  is_uso : Bool
deriving DecidableEq

/-- A performance record after `clean_df`. -/
structure Performance where
  id : Int
  band_id : Int
  member_id : Int
  part : String
deriving DecidableEq

/-- `format_year`: 0 renders as a wildcard label, otherwise the last two
digits of the decimal rendering (or the whole string when shorter). -/
def format_year (year_int : Int) : String :=
  if year_int = 0 then "全年度"
  else
    let s := toString year_int
    if s.length ≥ 2 then s.takeRight 2 else s

/-- One row of `df_full` after the two left merges and the `fillna`
sentinel pass in `main`.  `Option` fields are columns that can still
hold NaN after that pass (they were never filled); plain `String`
fields were filled.  The suffixed `id_x`/`id_y` columns produced by the
first merge are never referenced downstream and are omitted. -/
structure EnrichedRow where
  band_id : Int
  member_id : Int
  /-- The performance's own `part` column.  `df_full['part'].fillna("?")`
  targets this column; it is never NaN (every performance record carries
  a part string, possibly empty), so the fill is a no-op. -/
  part : String
  /-- `name_m` after `.fillna("不明")`. -/
  name_m : String
  year_m : Option Int
  part_m : Option String
  sub_parts_m : Option String
  is_uso_m : Option Bool
  circle : Option String
  role : Option String
  band_id_key : Option Int
  year_b : Option Int
  event_type : Option String
  /-- `artist_name` after `.fillna("不明")`. -/
  artist_name : String
  /-- `song_name` after `.fillna("不明")`. -/
  song_name : String
  /-- `description` after `.fillna("")`. -/
  description : String
  is_uso_b : Option Bool
  mem_disp : String
deriving DecidableEq

/-- Build one enriched row from a performance and its (possibly absent)
joined member and band, applying exactly the source's `fillna`
substitutions and the `mem_disp` concatenation
`year_str + name_m + "(" + part + ")"` (with `year_m.fillna(0)` feeding
`format_year`). -/
def mkEnriched (p : Performance) (m? : Option Member) (b? : Option Band) :
    EnrichedRow :=
  let name_m := (m?.map Member.name).getD "不明"
  { band_id := p.band_id
    member_id := p.member_id
    part := p.part
    name_m := name_m
    year_m := m?.map Member.year
    part_m := m?.map Member.part
    sub_parts_m := m?.map Member.sub_parts
    is_uso_m := m?.map Member.is_uso
    circle := m?.map Member.circle
    role := m?.map Member.role
    band_id_key := b?.map Band.id
    year_b := b?.map Band.year
    event_type := b?.map Band.event_type
    artist_name := (b?.map Band.artist_name).getD "不明"
    song_name := (b?.map Band.song_name).getD "不明"
    description := (b?.map Band.description).getD ""
    is_uso_b := b?.map Band.is_uso
    mem_disp :=
      format_year ((m?.map Member.year).getD 0) ++ name_m ++ "(" ++ p.part ++ ")" }

/-- Left-join match list: a row with no matches still contributes one
result with the missing side absent (pandas `how='left'`); with matches
it contributes one result per matching right-hand row. -/
def optList : List α → List (Option α)
  | [] => [none]
  | x :: xs => (x :: xs).map some

/-- The two left merges of `main`, restricted to one performance row:
all member matches on `member_id` crossed with all band matches on
`band_id` (each side defaulting to a single absent value). -/
def enrichRow (mems : List Member) (bands : List Band) (p : Performance) :
    List EnrichedRow :=
  (optList (mems.filter (fun m => m.id == p.member_id))).flatMap (fun m? =>
    (optList (bands.filter (fun b => b.id == p.band_id))).map (fun b? =>
      mkEnriched p m? b?))

/-- The enrichment pipeline of `main`: `df_full` stays empty unless all
three frames are non-empty; otherwise one block of joined rows per
performance, in performance order. -/
def enrich (mems : List Member) (bands : List Band)
    (perfs : List Performance) : List EnrichedRow :=
  if mems.isEmpty || bands.isEmpty || perfs.isEmpty then []
  else perfs.flatMap (enrichRow mems bands)

/-- Python `re` match of a pattern against a string prefix, for the
regex fragment consisting of literal characters and the '.' wildcard
(the fragment actually reachable from this application's fixed part
names; general patterns are outside the model). -/
def reMatchAt : List Char → List Char → Bool
  | [], _ => true
  | _ :: _, [] => false
  | c :: ps, x :: xs => (c == '.' || c == x) && reMatchAt ps xs

/-- `re.search` over that fragment: the pattern matches at some
position of the string. -/
def reSearchL (pat : List Char) : List Char → Bool
  | [] => reMatchAt pat []
  | x :: xs => reMatchAt pat (x :: xs) || reSearchL pat xs

/-- `Series.str.contains(pat)` on a present (non-NaN) string: pandas
defaults to `regex=True`, i.e. `re.search`. -/
def reSearch (pat s : String) : Bool :=
  reSearchL pat.toList s.toList

/-- Literal prefix match: the spec-side notion of a keyword matching at
a position (no wildcard). -/
def litMatchAt : List Char → List Char → Bool
  | [], _ => true
  | _ :: _, [] => false
  | c :: ps, x :: xs => c == x && litMatchAt ps xs

/-- Spec-side substring search, used to compare the implementation's
regex behaviour against the claim's "occurs as a substring" wording. -/
def substrSearchL (pat : List Char) : List Char → Bool
  | [] => litMatchAt pat []
  | x :: xs => litMatchAt pat (x :: xs) || substrSearchL pat xs

/-- The claim's "keyword occurs as a substring of the field". -/
def occursAsSubstring (kw s : String) : Bool :=
  substrSearchL kw.toList s.toList

/-- Characters special to Python regular expressions. -/
def regexMeta : List Char :=
  ['.', '^', '$', '*', '+', '?', '(', ')', '[', ']',
   Char.ofNat 123, Char.ofNat 125, '\\', '|']

/-- A keyword free of regex metacharacters (on such keywords the model's
regex fragment and real `re.search` agree, both being literal search). -/
def noMeta (s : String) : Bool :=
  s.toList.all (fun ch => !(regexMeta.contains ch))

/-- pandas `astype(str)` on a cell that may be NaN: NaN renders as
"nan", a present string is unchanged. -/
def optStr (o : Option String) : String :=
  o.getD "nan"

/-- The search criteria collected by `render_search_column`. -/
structure Criteria where
  show_uso : Bool
  year : Int
  event : String
  kw : String
  part : String
  circle : String
deriving DecidableEq

/-- The uso visibility step: `if not f_uso: view_df =
view_df[view_df['is_uso_b'] != True]` (NaN compares unequal to True and
is kept). -/
def usoStep (show_uso : Bool) (rows : List EnrichedRow) : List EnrichedRow :=
  if show_uso then rows else rows.filter (fun r => !(r.is_uso_b == some true))

/-- `if f_year > 0: view_df = view_df[view_df['year_b'] == f_year]`. -/
def yearStep (y : Int) (rows : List EnrichedRow) : List EnrichedRow :=
  if y > 0 then rows.filter (fun r => r.year_b == some y) else rows

/-- `if f_event != "すべて": view_df = view_df[view_df['event_type'] ==
f_event]`. -/
def eventStep (e : String) (rows : List EnrichedRow) : List EnrichedRow :=
  if e = "すべて" then rows else rows.filter (fun r => r.event_type == some e)

/-- The keyword mask of `main`: any of the three (already filled) text
columns matches the keyword under `str.contains` semantics.  An empty
keyword is falsy, so the whole step is skipped. -/
def kwStep (kw : String) (rows : List EnrichedRow) : List EnrichedRow :=
  if kw = "" then rows
  else rows.filter (fun r =>
    reSearch kw r.artist_name || reSearch kw r.song_name ||
      reSearch kw r.description)

/-- The row-level part predicate of the part filter: member's main part
equals the part, or the member's sub-part string matches it under
`str.contains` (NaN rendered "nan" by `astype(str)`), or the
performance's own part equals it. -/
def partPred (p : String) (r : EnrichedRow) : Bool :=
  r.part_m == some p || reSearch p (optStr r.sub_parts_m) || r.part == p

/-- The band-retention part filter: collect the band ids of matching
rows (`unique()`), then keep every row whose band id is in that set. -/
def partFilter (p : String) (rows : List EnrichedRow) : List EnrichedRow :=
  let t_ids := ((rows.filter (partPred p)).map EnrichedRow.band_id).dedup
  rows.filter (fun r => t_ids.contains r.band_id)

/-- `if f_part != "すべて": ...` -/
def partStep (p : String) (rows : List EnrichedRow) : List EnrichedRow :=
  if p = "すべて" then rows else partFilter p rows

/-- The row-level circle predicate (`view_df['circle'] == target_c`,
where `target_c = "" if f_circle == "" else f_circle`). -/
def circlePred (c : String) (r : EnrichedRow) : Bool :=
  r.circle == some (if c == "" then "" else c)

/-- The band-retention circle filter, same shape as the part filter. -/
def circleFilter (c : String) (rows : List EnrichedRow) : List EnrichedRow :=
  let t_ids_c := ((rows.filter (circlePred c)).map EnrichedRow.band_id).dedup
  rows.filter (fun r => t_ids_c.contains r.band_id)

/-- `if f_circle != "すべて": ...` -/
def circleStep (c : String) (rows : List EnrichedRow) : List EnrichedRow :=
  if c = "すべて" then rows else circleFilter c rows

/-- The filter steps that run after the uso step, in source order. -/
def postUso (c : Criteria) (rows : List EnrichedRow) : List EnrichedRow :=
  circleStep c.circle (partStep c.part (kwStep c.kw
    (eventStep c.event (yearStep c.year rows))))

/-- The whole filter chain of `main`, in source order. -/
def applyFilters (c : Criteria) (rows : List EnrichedRow) : List EnrichedRow :=
  postUso c (usoStep c.show_uso rows)

/-- The groupby key of the band summary:
`(band_id, year_b, event_type, artist_name, song_name, description)`.
Only applied to rows where the two nullable components are present
(pandas drops groups with a NaN key). -/
def bandKey (r : EnrichedRow) : Int × Int × String × String × String × String :=
  (r.band_id, r.year_b.getD 0, r.event_type.getD "",
   r.artist_name, r.song_name, r.description)

/-- Lexicographic character-list comparison (how pandas orders the
string components when sorting group keys). -/
def charListLe : List Char → List Char → Bool
  | [], _ => true
  | _ :: _, [] => false
  | a :: as, b :: bs => a < b || (a == b && charListLe as bs)

/-- Ascending lexicographic order on the full groupby key
(`groupby(..., sort=True)` sorts the group keys). -/
def keyLe (a b : Int × Int × String × String × String × String) : Bool :=
  decide (a.1 < b.1) || (a.1 == b.1 &&
    (decide (a.2.1 < b.2.1) || (a.2.1 == b.2.1 &&
      (charListLe a.2.2.1.toList b.2.2.1.toList && (!(a.2.2.1 == b.2.2.1) ||
        (charListLe a.2.2.2.1.toList b.2.2.2.1.toList && (!(a.2.2.2.1 == b.2.2.2.1) ||
          (charListLe a.2.2.2.2.1.toList b.2.2.2.2.1.toList && (!(a.2.2.2.2.1 == b.2.2.2.2.1) ||
            charListLe a.2.2.2.2.2.toList b.2.2.2.2.2.toList)))))))))

/-- One output row of the band grouping (`grouped` in `main`). -/
structure BandSummary where
  band_id : Int
  year_b : Int
  event_type : String
  artist_name : String
  song_name : String
  description : String
  mem_disp : String
deriving DecidableEq

/-- The aggregation of one group: member display strings of the group's
rows, in encountered order, joined with ", ". -/
def mkSummary (rows' : List EnrichedRow)
    (k : Int × Int × String × String × String × String) : BandSummary :=
  { band_id := k.1
    year_b := k.2.1
    event_type := k.2.2.1
    artist_name := k.2.2.2.1
    song_name := k.2.2.2.2.1
    description := k.2.2.2.2.2
    mem_disp := String.intercalate ", "
      ((rows'.filter (fun r => bandKey r == k)).map EnrichedRow.mem_disp) }

/-- The final sort key of `main`:
`sort_values(['year_b', 'band_id'], ascending=[False, False])` — `a`
comes before `b` when `a` is lexicographically at least `b` on
(year, band id). -/
def sumLe (a b : BandSummary) : Bool :=
  decide (b.year_b < a.year_b) ||
    (b.year_b == a.year_b && decide (b.band_id ≤ a.band_id))

/-- `groupByBand`: the grouping/aggregation/sort block of `main`.
Rows whose nullable key components are NaN fall out of the groupby;
group keys are collected (ascending, as `groupby(sort=True)` leaves
them), aggregated, then sorted descending by (year, band id). -/
def groupByBand (rows : List EnrichedRow) : List BandSummary :=
  let rows' := rows.filter (fun r => r.year_b.isSome && r.event_type.isSome)
  let keys := ((rows'.map bandKey).dedup).mergeSort keyLe
  (keys.map (mkSummary rows')).mergeSort sumLe

/-- The two tables touched by band registration. -/
structure DBState where
  bands : Worksheet
  performances : Worksheet
deriving DecidableEq

/-- One entry of `st.session_state.temp_mems`: the member id and the
part chosen for that member. -/
structure TempMem where
  id : Int
  name : String
  part : String
deriving DecidableEq

/-- The band-save flow of `render_register_mode`: a blank artist name is
rejected with no write; otherwise one band row is added (capturing the
allocated band id) and one performance per selected member is
bulk-inserted carrying that band id, the member id, and the chosen
part. -/
def saveBand (st : DBState) (is_uso : Bool) (r_year : Int)
    (r_event r_artist r_song r_desc : String) (temp_mems : List TempMem) :
    DBState × Bool :=
  if r_artist = "" then (st, false)
  else
    let res := add_row st.bands
      [("year", .int r_year), ("event_type", .str r_event),
       ("band_name", .str ""), ("artist_name", .str r_artist),
       ("song_name", .str r_song), ("description", .str r_desc),
       ("is_uso", .bool is_uso)]
    let perfs := temp_mems.map (fun m =>
      [("band_id", Value.int (res.2 : Int)), ("member_id", Value.int m.id),
       ("part", Value.str m.part)])
    ({ bands := res.1,
       performances := bulk_insert_performances st.performances perfs }, true)

/-! Concrete records used by witnesses and counterexamples. -/

/-- A sample member. -/
def memA : Member :=
  { id := 1, name := "A", year := 2023, part := "Gt", sub_parts := "",
    circle := "", role := "", is_uso := false }

/-- A sample band. -/
def bandA : Band :=
  { id := 10, year := 2023, event_type := "春コン", band_name := "",
    artist_name := "X", song_name := "Y", description := "", is_uso := false }

/-- A fictional (`is_uso`) band. -/
def bandUso : Band :=
  { id := 11, year := 2024, event_type := "新歓", band_name := "",
    artist_name := "U", song_name := "V", description := "", is_uso := true }

/-- A band whose artist name is "abc" (keyword-filter material). -/
def bandAbc : Band :=
  { id := 12, year := 2023, event_type := "新歓", band_name := "",
    artist_name := "abc", song_name := "x", description := "", is_uso := false }

/-- A performance of `memA` in `bandA`. -/
def perfA : Performance := { id := 101, band_id := 10, member_id := 1, part := "Gt" }

/-- A performance whose `member_id` dangles (no member 999). -/
def perfDangling : Performance := { id := 100, band_id := 10, member_id := 999, part := "Gt" }

/-- A second performance of `bandA` with a dangling member. -/
def perfB : Performance := { id := 102, band_id := 10, member_id := 2, part := "Dr" }

/-- A performance in the fictional band. -/
def perfUso : Performance := { id := 103, band_id := 11, member_id := 1, part := "Ba" }

/-- Enriched row: `memA` playing in `bandA`. -/
def rowA : EnrichedRow := mkEnriched perfA (some memA) (some bandA)

/-- Enriched row: dangling member in `bandA`. -/
def rowB : EnrichedRow := mkEnriched perfB none (some bandA)

/-- Enriched row: `memA` playing in the fictional band. -/
def rowUso : EnrichedRow := mkEnriched perfUso (some memA) (some bandUso)

/-- Enriched row: `memA` playing in `bandAbc`. -/
def rowAbc : EnrichedRow :=
  mkEnriched { id := 104, band_id := 12, member_id := 1, part := "Gt" }
    (some memA) (some bandAbc)

/-- A wildcard criteria record (fictional rows hidden, everything else
unfiltered). -/
def critAll : Criteria :=
  { show_uso := false, year := 0, event := "すべて", kw := "",
    part := "すべて", circle := "すべて" }

/-- A small bands worksheet (numeric id 3 plus a non-numeric id). -/
def wsBands : Worksheet :=
  { cells :=
    [[.str "id", .str "year", .str "event_type", .str "band_name",
      .str "artist_name", .str "song_name", .str "description", .str "is_uso"],
     [.int 3, .int 2023, .str "春コン", .str "", .str "X", .str "Y",
      .str "", .str "FALSE"],
     [.str "zzz", .int 2022, .str "新歓", .str "", .str "W", .str "Z",
      .str "", .str "FALSE"]] }

/-- A small performances worksheet. -/
def wsPerf : Worksheet :=
  { cells :=
    [[.str "id", .str "band_id", .str "member_id", .str "part"],
     [.int 1, .int 10, .int 1, .str "Gt"]] }

/-- A database state built from the two sample worksheets. -/
def dbA : DBState := { bands := wsBands, performances := wsPerf }

/-! Helper lemmas. -/

/-- Reading the cell of a named column out of a row laid out along the
header. -/
lemma get?_map_indexOf {α : Type} (hd : List String) (f : String → α)
    (col : String) (h : col ∈ hd) :
    (hd.map f)[hd.indexOf col]? = some (f col) := by
  have hlt : hd.indexOf col < hd.length := List.indexOf_lt_length.2 h
  rw [List.getElem?_map, List.getElem?_eq_getElem hlt, List.getElem_indexOf hlt]
  rfl

/-- Every filter step only discards rows. -/
lemma mem_of_usoStep {u : Bool} {rows : List EnrichedRow} {r : EnrichedRow}
    (h : r ∈ usoStep u rows) : r ∈ rows := by
  unfold usoStep at h; split at h
  · exact h
  · exact (List.mem_filter.1 h).1

lemma mem_of_yearStep {y : Int} {rows : List EnrichedRow} {r : EnrichedRow}
    (h : r ∈ yearStep y rows) : r ∈ rows := by
  unfold yearStep at h; split at h
  · exact (List.mem_filter.1 h).1
  · exact h

lemma mem_of_eventStep {e : String} {rows : List EnrichedRow} {r : EnrichedRow}
    (h : r ∈ eventStep e rows) : r ∈ rows := by
  unfold eventStep at h; split at h
  · exact h
  · exact (List.mem_filter.1 h).1

lemma mem_of_kwStep {kw : String} {rows : List EnrichedRow} {r : EnrichedRow}
    (h : r ∈ kwStep kw rows) : r ∈ rows := by
  unfold kwStep at h; split at h
  · exact h
  · exact (List.mem_filter.1 h).1

lemma mem_of_partFilter {p : String} {rows : List EnrichedRow} {r : EnrichedRow}
    (h : r ∈ partFilter p rows) : r ∈ rows :=
  (List.mem_filter.1 h).1

lemma mem_of_partStep {p : String} {rows : List EnrichedRow} {r : EnrichedRow}
    (h : r ∈ partStep p rows) : r ∈ rows := by
  unfold partStep at h; split at h
  · exact h
  · exact mem_of_partFilter h

lemma mem_of_circleFilter {c : String} {rows : List EnrichedRow} {r : EnrichedRow}
    (h : r ∈ circleFilter c rows) : r ∈ rows :=
  (List.mem_filter.1 h).1

lemma mem_of_circleStep {c : String} {rows : List EnrichedRow} {r : EnrichedRow}
    (h : r ∈ circleStep c rows) : r ∈ rows := by
  unfold circleStep at h; split at h
  · exact h
  · exact mem_of_circleFilter h

/-- Surviving the post-uso filter chain means having been in its input. -/
lemma mem_of_postUso {c : Criteria} {rows : List EnrichedRow} {r : EnrichedRow}
    (h : r ∈ postUso c rows) : r ∈ rows :=
  mem_of_yearStep (mem_of_eventStep (mem_of_kwStep
    (mem_of_partStep (mem_of_circleStep h))))

/-- Surviving the whole filter chain means having been in its input. -/
lemma mem_of_applyFilters {c : Criteria} {rows : List EnrichedRow}
    {r : EnrichedRow} (h : r ∈ applyFilters c rows) : r ∈ rows :=
  mem_of_usoStep (mem_of_postUso h)

/-! C7: empty inputs. -/

/-- C7: when any of the three input collections is empty, the
enrichment pipeline returns the empty enriched set (and, being a total
function, raises nothing). -/
theorem C7_empty_input_yields_empty (mems : List Member) (bands : List Band)
    (perfs : List Performance)
    (h : mems = [] ∨ bands = [] ∨ perfs = []) :
    enrich mems bands perfs = [] := by
  rcases h with h | h | h <;> simp [enrich, h]

/-- C7 witness: a run with only the member collection empty. -/
theorem C7_witness : enrich [] [bandA] [perfA] = [] :=
  C7_empty_input_yields_empty [] [bandA] [perfA] (Or.inl rfl)

/-! C2: band-group retention of the part/circle filters. -/

/-- C2: the part and circle filtering steps are closed under band
membership: if some surviving-so-far row of a band satisfies the
row-level predicate, every surviving-so-far row of that band survives
the step. -/
theorem C2_band_group_retention (rows : List EnrichedRow) (p c : String)
    (r r' : EnrichedRow) (hr : r ∈ rows) (hr' : r' ∈ rows)
    (hband : r'.band_id = r.band_id) :
    (partPred p r' = true → r ∈ partFilter p rows) ∧
    (circlePred c r' = true → r ∈ circleFilter c rows) := by
  constructor
  · intro hp
    refine List.mem_filter.2 ⟨hr, ?_⟩
    have hmem : r.band_id ∈
        ((rows.filter (partPred p)).map EnrichedRow.band_id).dedup := by
      rw [List.mem_dedup]
      exact List.mem_map.2 ⟨r', List.mem_filter.2 ⟨hr', hp⟩, hband⟩
    exact List.elem_iff.2 hmem
  · intro hc
    refine List.mem_filter.2 ⟨hr, ?_⟩
    have hmem : r.band_id ∈
        ((rows.filter (circlePred c)).map EnrichedRow.band_id).dedup := by
      rw [List.mem_dedup]
      exact List.mem_map.2 ⟨r', List.mem_filter.2 ⟨hr', hc⟩, hband⟩
    exact List.elem_iff.2 hmem

/-- C2 witness: the dangling-member row of band 10 survives the part
filter because its bandmate matches "Gt". -/
theorem C2_witness : rowB ∈ partFilter "Gt" [rowA, rowB] :=
  (C2_band_group_retention [rowA, rowB] "Gt" "" rowB rowA
    (by decide) (by decide) (by decide)).1 (by decide)

/-! C4: the fictional-band filter. -/

/-- C4: with `includeFictional = false` no surviving row's band has
`is_uso = true`; with `includeFictional = true` the uso step passes
every row through and only the remaining criteria apply. -/
theorem C4_fictional_filter (c : Criteria) (rows : List EnrichedRow) :
    (c.show_uso = false →
      ∀ r ∈ applyFilters c rows, ¬ r.is_uso_b = some true) ∧
    (c.show_uso = true → applyFilters c rows = postUso c rows) := by
  constructor
  · intro hu r hmem
    have h1 : r ∈ usoStep c.show_uso rows := mem_of_postUso hmem
    rw [hu] at h1
    unfold usoStep at h1
    simp only [if_neg (by simp : ¬ (false = true))] at h1
    have h2 := (List.mem_filter.1 h1).2
    simpa using h2
  · intro hu
    unfold applyFilters usoStep
    rw [hu]
    simp

/-- C4 witness: with fictional bands hidden, a surviving row's band is
not fictional. -/
theorem C4_witness : ¬ rowA.is_uso_b = some true :=
  (C4_fictional_filter critAll [rowA]).1 rfl rowA (by decide)

/-! C5: the keyword filter. -/

/-- On a pattern without the wildcard, the regex prefix match is the
literal prefix match. -/
lemma reMatchAt_eq_lit (pat : List Char) (h : '.' ∉ pat) :
    ∀ s : List Char, reMatchAt pat s = litMatchAt pat s := by
  induction pat with
  | nil => intro s; rfl
  | cons c ps ih =>
    intro s
    cases s with
    | nil => rfl
    | cons x xs =>
      have hc : c ≠ '.' := fun hcEq => h (hcEq ▸ List.mem_cons_self c ps)
      have hcb : (c == '.') = false := by
        simpa using hc
      simp only [reMatchAt, litMatchAt, hcb, Bool.false_or]
      rw [ih (fun hm => h (List.mem_cons_of_mem _ hm)) xs]

/-- On a pattern without the wildcard, regex search is substring
search. -/
lemma reSearchL_eq_substr (pat : List Char) (h : '.' ∉ pat) :
    ∀ s : List Char, reSearchL pat s = substrSearchL pat s := by
  intro s
  induction s with
  | nil => simpa [reSearchL, substrSearchL] using reMatchAt_eq_lit pat h []
  | cons x xs ih =>
    simp only [reSearchL, substrSearchL, reMatchAt_eq_lit pat h, ih]

/-- A metacharacter-free keyword contains no '.'. -/
lemma noMeta_no_dot (kw : String) (h : noMeta kw = true) :
    '.' ∉ kw.toList := by
  intro hmem
  have hall := (List.all_eq_true.1 h) _ hmem
  simp [regexMeta] at hall

/-- The empty pattern matches every string. -/
lemma substrSearchL_nil (l : List Char) : substrSearchL [] l = true := by
  cases l <;> simp [substrSearchL, litMatchAt]

/-- C5 counterexample: the keyword is fed to pandas `str.contains` as a
regular expression, not as a literal substring.  The keyword ".", which
is a substring of none of the row's three text fields, nevertheless
keeps the row (regex '.' matches any character), so the filter is not
substring-based as claimed. -/
theorem C5_counterexample :
    kwStep "." [rowAbc] ≠ [rowAbc].filter (fun r =>
      occursAsSubstring "." r.artist_name ||
        occursAsSubstring "." r.song_name ||
        occursAsSubstring "." r.description) ∧
    kwStep "." [rowAbc] = [rowAbc] ∧
    (occursAsSubstring "." rowAbc.artist_name ||
      occursAsSubstring "." rowAbc.song_name ||
      occursAsSubstring "." rowAbc.description) = false := by
  refine ⟨?_, by decide, by decide⟩
  decide

/-- C5 amended: the keyword is interpreted as a regular expression.
For keywords free of regex metacharacters this coincides with the
claimed substring semantics: the step keeps exactly the rows where the
keyword occurs in at least one of artist name, song name, description;
and an empty keyword keeps every row. -/
theorem C5_amended_keyword_filter (kw : String) (rows : List EnrichedRow)
    (h : noMeta kw = true) :
    kwStep kw rows = rows.filter (fun r =>
      occursAsSubstring kw r.artist_name ||
        occursAsSubstring kw r.song_name ||
        occursAsSubstring kw r.description) ∧
    (kw = "" → kwStep kw rows = rows) := by
  have hdot := noMeta_no_dot kw h
  have hsearch : ∀ s, reSearchL kw.toList s = substrSearchL kw.toList s :=
    reSearchL_eq_substr kw.toList hdot
  constructor
  · unfold kwStep
    split
    · next he =>
      subst he
      refine ((List.filter_congr (fun r _ => ?_)).trans (List.filter_true rows)).symm
      simp [occursAsSubstring, substrSearchL_nil]
    · exact List.filter_congr (fun r _ => by
        simp only [reSearch, occursAsSubstring, hsearch])
  · intro he
    simp [kwStep, he]

/-- C5 witness: the metacharacter-free keyword "Gt" filters by
substring. -/
theorem C5_witness :
    kwStep "Gt" [rowA] = [rowA].filter (fun r =>
      occursAsSubstring "Gt" r.artist_name ||
        occursAsSubstring "Gt" r.song_name ||
        occursAsSubstring "Gt" r.description) ∧
    ("Gt" = "" → kwStep "Gt" [rowA] = [rowA]) :=
  C5_amended_keyword_filter "Gt" [rowA] (by decide)

/-! C1: dangling references in the enrichment join. -/

/-- C1 counterexample: a performance with a dangling `member_id` still
yields exactly one row and the member-name sentinel, but the row's
`part` is the performance's own recorded part ("Gt"), not the claimed
"?" sentinel: the `fillna("?")` in the source targets the performance's
`part` column, which a failed member join never makes NaN. -/
theorem C1_counterexample :
    (enrich [memA] [bandA] [perfDangling]).length = 1 ∧
    (enrich [memA] [bandA] [perfDangling]).map
      (fun r => (r.name_m, r.part)) = [("不明", "Gt")] ∧
    (enrich [memA] [bandA] [perfDangling]).all
      (fun r => r.part == "?") = false := by
  refine ⟨by decide, by decide, by decide⟩

/-- C1 amended: with id-keyed collections (at most one match per side),
a performance whose member or band reference dangles still contributes
exactly one enriched row; a missing member yields the "不明" name
sentinel while the displayed part remains the performance's own part
(the "?" sentinel would only replace a missing performance part); a
missing band yields "不明" artist and song names and an empty
description. -/
theorem C1_amended_dangling_join (mems : List Member) (bands : List Band)
    (p : Performance)
    (hm1 : (mems.filter (fun m => m.id == p.member_id)).length ≤ 1)
    (hb1 : (bands.filter (fun b => b.id == p.band_id)).length ≤ 1)
    (hdang : mems.filter (fun m => m.id == p.member_id) = [] ∨
             bands.filter (fun b => b.id == p.band_id) = []) :
    ∃ r, enrichRow mems bands p = [r] ∧
      (mems.filter (fun m => m.id == p.member_id) = [] →
        r.name_m = "不明" ∧ r.part = p.part) ∧
      (bands.filter (fun b => b.id == p.band_id) = [] →
        r.artist_name = "不明" ∧ r.song_name = "不明" ∧ r.description = "") := by
  rcases hml : mems.filter (fun m => m.id == p.member_id) with _ | ⟨m, mt⟩
  · rcases hbl : bands.filter (fun b => b.id == p.band_id) with _ | ⟨b, bt⟩
    · refine ⟨mkEnriched p none none, ?_, ?_, ?_⟩
      · simp [enrichRow, hml, hbl, optList]
      · intro _; exact ⟨by simp [mkEnriched], by simp [mkEnriched]⟩
      · intro _; exact ⟨by simp [mkEnriched], by simp [mkEnriched], by simp [mkEnriched]⟩
    · have hbt : bt = [] := by
        have h1 := hb1
        rw [hbl] at h1
        simpa using h1
      subst hbt
      refine ⟨mkEnriched p none (some b), ?_, ?_, ?_⟩
      · simp [enrichRow, hml, hbl, optList]
      · intro _; exact ⟨by simp [mkEnriched], by simp [mkEnriched]⟩
      · intro hcontra; rw [hbl] at hcontra; cases hcontra
  · have hmt : mt = [] := by
      have h1 := hm1
      rw [hml] at h1
      simpa using h1
    subst hmt
    have hbl : bands.filter (fun b => b.id == p.band_id) = [] := by
      rcases hdang with h | h
      · rw [hml] at h; cases h
      · exact h
    refine ⟨mkEnriched p (some m) none, ?_, ?_, ?_⟩
    · simp [enrichRow, hml, hbl, optList]
    · intro hcontra; rw [hml] at hcontra; cases hcontra
    · intro _; exact ⟨by simp [mkEnriched], by simp [mkEnriched], by simp [mkEnriched]⟩

/-- C1 witness: the dangling-member performance against the sample
collections. -/
theorem C1_witness :
    ∃ r, enrichRow [memA] [bandA] perfDangling = [r] ∧
      ([memA].filter (fun m => m.id == perfDangling.member_id) = [] →
        r.name_m = "不明" ∧ r.part = perfDangling.part) ∧
      ([bandA].filter (fun b => b.id == perfDangling.band_id) = [] →
        r.artist_name = "不明" ∧ r.song_name = "不明" ∧ r.description = "") :=
  C1_amended_dangling_join [memA] [bandA] perfDangling
    (by decide) (by decide) (Or.inl (by decide))

/-! Dictionary and max-fold lemmas for the data access layer. -/

/-- After overwriting key `k`, looking `k` up in the rewritten
association list yields the new value (given the key was present). -/
lemma find?_map_keySet_self (k : String) (v : Value) :
    ∀ d : List (String × Value), d.any (fun kv => kv.1 == k) = true →
      (d.map (fun kv => if kv.1 == k then (k, v) else kv)).find?
        (fun kv => kv.1 == k) = some (k, v) := by
  intro d
  induction d with
  | nil => intro h; cases h
  | cons kv t ih =>
    intro h
    rw [List.map_cons]
    by_cases hkv : (kv.1 == k) = true
    · rw [if_pos hkv]
      simp only [List.find?_cons]
      have hkk : ((k, v).1 == k) = true := by simp
      rw [hkk]
    · rw [if_neg hkv]
      have hkvf : (kv.1 == k) = false := by simpa using hkv
      simp only [List.find?_cons]
      rw [hkvf]
      exact ih (by simpa [hkvf] using h)

/-- Overwriting key `k` does not disturb lookups of other keys. -/
lemma find?_map_keySet_ne (k k' : String) (v : Value) (hne : k' ≠ k) :
    ∀ d : List (String × Value),
      (d.map (fun kv => if kv.1 == k then (k, v) else kv)).find?
        (fun kv => kv.1 == k') = d.find? (fun kv => kv.1 == k') := by
  intro d
  induction d with
  | nil => rfl
  | cons kv t ih =>
    rw [List.map_cons]
    by_cases hkv : (kv.1 == k) = true
    · have hkvk : kv.1 = k := by simpa using hkv
      rw [if_pos hkv]
      simp only [List.find?_cons]
      have h1 : ((k, v).1 == k') = false := by simp [Ne.symm hne]
      have h2 : (kv.1 == k') = false := by simp [hkvk, Ne.symm hne]
      rw [h1, h2]
      exact ih
    · rw [if_neg hkv]
      simp only [List.find?_cons]
      cases hpk : (kv.1 == k') with
      | true => rfl
      | false => exact ih

/-- The characteristic equation of `dictSet` under `dictGet`. -/
lemma dictGet_dictSet (d : List (String × Value)) (k k' : String) (v : Value) :
    dictGet (dictSet d k v) k' = if k' = k then some v else dictGet d k' := by
  unfold dictGet dictSet
  by_cases hany : d.any (fun kv => kv.1 == k) = true
  · rw [if_pos hany]
    by_cases hk : k' = k
    · subst hk
      rw [find?_map_keySet_self k' v d hany]
      simp
    · rw [find?_map_keySet_ne k k' v hk d]
      simp [hk]
  · rw [if_neg hany, List.find?_append]
    by_cases hk : k' = k
    · subst hk
      have hnone : d.find? (fun kv => kv.1 == k') = none := by
        rw [List.find?_eq_none]
        intro x hx hpx
        exact hany (List.any_eq_true.2 ⟨x, hx, hpx⟩)
      rw [hnone]
      simp only [Option.none_or, List.find?_cons]
      have hkk : ((k', v).1 == k') = true := by simp
      rw [hkk]
      simp
    · have h1 : ((k, v).1 == k') = false := by simp [Ne.symm hk]
      simp only [List.find?_cons, h1]
      simp [hk]

/-- The fold seed never exceeds the fold of `Nat.max`. -/
lemma foldl_max_init_le (l : List Nat) : ∀ a : Nat, a ≤ l.foldl Nat.max a := by
  induction l with
  | nil => intro a; exact Nat.le_refl a
  | cons x t ih =>
    intro a
    simp only [List.foldl_cons]
    exact Nat.le_trans (Nat.le_max_left a x) (ih (Nat.max a x))

/-- Every list element is bounded by the `Nat.max` fold. -/
lemma mem_le_foldl_max (l : List Nat) : ∀ (a : Nat), ∀ x ∈ l, x ≤ l.foldl Nat.max a := by
  induction l with
  | nil => intro a x hx; cases hx
  | cons y t ih =>
    intro a x hx
    simp only [List.foldl_cons]
    rcases List.mem_cons.1 hx with rfl | hx'
    · exact Nat.le_trans (Nat.le_max_right a x) (foldl_max_init_le t _)
    · exact ih _ x hx'

/-- The `Nat.max` fold is the seed or an element of the list. -/
lemma foldl_max_self_or_mem (l : List Nat) :
    ∀ a : Nat, l.foldl Nat.max a = a ∨ l.foldl Nat.max a ∈ l := by
  induction l with
  | nil => intro a; exact Or.inl rfl
  | cons x t ih =>
    intro a
    simp only [List.foldl_cons]
    rcases ih (Nat.max a x) with h | h
    · rcases Nat.le_total a x with hax | hxa
      · have hmax : Nat.max a x = x := Nat.max_eq_right hax
        rw [h, hmax]
        exact Or.inr (List.mem_cons_self x t)
      · have hmax : Nat.max a x = a := Nat.max_eq_left hxa
        rw [h, hmax]
        exact Or.inl rfl
    · exact Or.inr (List.mem_cons_of_mem x h)

/-- Over a nonempty list the `Nat.max` fold from 0 attains an element
(`max(valid_ids)` in the source). -/
lemma foldl_max_zero_mem (l : List Nat) (h : l ≠ []) : l.foldl Nat.max 0 ∈ l := by
  rcases foldl_max_self_or_mem l 0 with h0 | hmem
  · cases l with
    | nil => exact absurd rfl h
    | cons x t =>
      have hx : x ≤ (x :: t).foldl Nat.max 0 :=
        mem_le_foldl_max _ 0 x (List.mem_cons_self x t)
      rw [h0] at hx
      have hx0 : x = 0 := Nat.le_zero.1 hx
      rw [h0, ← hx0]
      exact List.mem_cons_self x t
  · exact hmem

/-- The allocated id strictly dominates every numeric id in the table. -/
lemma lt_get_next_id (ws : Worksheet) : ∀ m ∈ numericIds ws, m < get_next_id ws := by
  intro m hm
  unfold get_next_id
  split
  · next hnil => rw [hnil] at hm; cases hm
  · exact Nat.lt_succ_of_le (mem_le_foldl_max _ 0 m hm)

/-- The allocated id is 1 or the successor of an existing numeric id. -/
lemma get_next_id_pred_mem (ws : Worksheet) :
    get_next_id ws = 1 ∨ get_next_id ws - 1 ∈ numericIds ws := by
  unfold get_next_id
  split
  · exact Or.inl rfl
  · next hne => exact Or.inr (by simpa using foldl_max_zero_mem _ hne)

/-! C3: id allocation on insert. -/

/-- C3: inserting one record appends exactly one new row; its id cell
holds the allocated id, which strictly exceeds every numeric id already
in the table and is 1 or the successor of an existing one (i.e.
max + 1, or 1 on a table without numeric ids); and the result is
independent of any id supplied by the caller. -/
theorem C3_insert_assigns_next_id (ws : Worksheet) (d : List (String × Value))
    (hid : "id" ∈ header ws) :
    ∃ row, (add_row ws d).1.cells = ws.cells ++ [row] ∧
      row[(header ws).indexOf "id"]? =
        some (.int ((add_row ws d).2 : Int)) ∧
      (∀ m ∈ numericIds ws, m < (add_row ws d).2) ∧
      ((add_row ws d).2 = 1 ∨ ((add_row ws d).2 - 1) ∈ numericIds ws) ∧
      (∀ v, add_row ws (dictSet d "id" v) = add_row ws d) := by
  refine ⟨(header ws).map (fun h => coerceVal
      ((dictGet (dictSet d "id" (.int (get_next_id ws : Int))) h).getD (.str ""))),
    rfl, ?_, ?_, ?_, ?_⟩
  · rw [get?_map_indexOf _ _ _ hid]
    simp [dictGet_dictSet, coerceVal]
    rfl
  · exact fun m hm => lt_get_next_id ws m hm
  · exact get_next_id_pred_mem ws
  · intro v
    have hrow : ∀ h ∈ header ws,
        coerceVal ((dictGet (dictSet (dictSet d "id" v) "id"
            (.int (get_next_id ws : Int))) h).getD (.str "")) =
        coerceVal ((dictGet (dictSet d "id"
            (.int (get_next_id ws : Int))) h).getD (.str "")) := by
      intro h _
      by_cases hk : h = "id"
      · subst hk
        simp [dictGet_dictSet]
      · simp [dictGet_dictSet, hk]
    simp only [add_row]
    rw [List.map_congr_left hrow]

/-- C3 witness: inserting against the sample bands worksheet (max id 3,
a non-numeric id ignored) appends one row with id 4, even though the
caller supplied id 99. -/
theorem C3_witness :
    ∃ row, (add_row wsBands [("artist_name", .str "Q"), ("id", .int 99)]).1.cells
        = wsBands.cells ++ [row] ∧
      row[(header wsBands).indexOf "id"]? =
        some (.int ((add_row wsBands [("artist_name", .str "Q"), ("id", .int 99)]).2 : Int)) ∧
      (∀ m ∈ numericIds wsBands,
        m < (add_row wsBands [("artist_name", .str "Q"), ("id", .int 99)]).2) ∧
      ((add_row wsBands [("artist_name", .str "Q"), ("id", .int 99)]).2 = 1 ∨
        ((add_row wsBands [("artist_name", .str "Q"), ("id", .int 99)]).2 - 1)
          ∈ numericIds wsBands) ∧
      (∀ v, add_row wsBands (dictSet [("artist_name", .str "Q"), ("id", .int 99)] "id" v)
        = add_row wsBands [("artist_name", .str "Q"), ("id", .int 99)]) :=
  C3_insert_assigns_next_id wsBands [("artist_name", .str "Q"), ("id", .int 99)]
    (by decide)

/-! Bulk-insert lemmas. -/

/-- One built row per input dict. -/
lemma buildBulkRows_length (hd : List String) :
    ∀ (start : Nat) (rs : List (List (String × Value))),
      (buildBulkRows hd start rs).length = rs.length := by
  intro start rs
  induction rs generalizing start with
  | nil => rfl
  | cons r t ih => simp [buildBulkRows, ih]

/-- The id column of the built rows: consecutive ids from `start`, in
input order. -/
lemma buildBulkRows_map_id (hd : List String) (hid : "id" ∈ hd) :
    ∀ (start : Nat) (rs : List (List (String × Value))),
      (buildBulkRows hd start rs).map (fun row => row[hd.indexOf "id"]?) =
        (List.range rs.length).map
          (fun i => some (Value.int ((start + i : Nat) : Int))) := by
  intro start rs
  induction rs generalizing start with
  | nil => rfl
  | cons r t ih =>
    simp only [buildBulkRows, List.map_cons, List.length_cons]
    rw [get?_map_indexOf _ _ _ hid, ih (start + 1),
      List.range_succ_eq_map, List.map_cons, List.map_map]
    rw [List.cons_eq_cons]
    refine ⟨by simp [dictGet_dictSet], ?_⟩
    apply List.map_congr_left
    intro i _
    simp only [Function.comp]
    congr 2
    omega

/-- A non-id column of the built rows comes straight from the input
dicts. -/
lemma buildBulkRows_map_col (hd : List String) (col : String)
    (hcol : col ∈ hd) (hne : col ≠ "id") :
    ∀ (start : Nat) (rs : List (List (String × Value))),
      (buildBulkRows hd start rs).map (fun row => row[hd.indexOf col]?) =
        rs.map (fun r => some ((dictGet r col).getD (.str ""))) := by
  intro start rs
  induction rs generalizing start with
  | nil => rfl
  | cons r t ih =>
    simp only [buildBulkRows, List.map_cons]
    rw [get?_map_indexOf _ _ _ hcol, ih (start + 1)]
    rw [List.cons_eq_cons]
    exact ⟨by simp [dictGet_dictSet, hne], rfl⟩

/-! C9: bulk performance insertion. -/

/-- C9: bulk-inserting an empty list writes nothing; otherwise exactly
`N` rows are appended whose id cells are `start, start+1, …` in input
order, where `start` is the next id of the table (it strictly exceeds
every existing numeric id and is 1 or the successor of an existing
one). -/
theorem C9_bulk_insert_ids (ws : Worksheet)
    (rows_list : List (List (String × Value))) (hid : "id" ∈ header ws) :
    (rows_list = [] → bulk_insert_performances ws rows_list = ws) ∧
    (bulk_insert_performances ws rows_list).cells.length
      = ws.cells.length + rows_list.length ∧
    (∀ m ∈ numericIds ws, m < get_next_id ws) ∧
    (get_next_id ws = 1 ∨ get_next_id ws - 1 ∈ numericIds ws) ∧
    ((bulk_insert_performances ws rows_list).cells.drop ws.cells.length).map
        (fun row => row[(header ws).indexOf "id"]?)
      = (List.range rows_list.length).map
          (fun i => some (Value.int ((get_next_id ws + i : Nat) : Int))) := by
  refine ⟨?_, ?_, lt_get_next_id ws, get_next_id_pred_mem ws, ?_⟩
  · intro h
    simp [bulk_insert_performances, h]
  · by_cases h : rows_list.isEmpty
    · have hnil : rows_list = [] := by simpa using h
      simp [bulk_insert_performances, hnil]
    · simp [bulk_insert_performances, h, buildBulkRows_length]
  · by_cases h : rows_list.isEmpty
    · have hnil : rows_list = [] := by simpa using h
      simp [bulk_insert_performances, hnil]
    · simp only [bulk_insert_performances, if_neg h]
      rw [List.drop_left]
      exact buildBulkRows_map_id (header ws) hid (get_next_id ws) rows_list

/-- C9 witness: two rows against the sample performances worksheet
(next id 2). -/
theorem C9_witness :
    ([[("band_id", Value.int 10), ("member_id", Value.int 1), ("part", Value.str "Gt")],
      [("band_id", Value.int 10), ("member_id", Value.int 2), ("part", Value.str "Ba")]]
        = ([] : List (List (String × Value))) →
      bulk_insert_performances wsPerf
        [[("band_id", Value.int 10), ("member_id", Value.int 1), ("part", Value.str "Gt")],
         [("band_id", Value.int 10), ("member_id", Value.int 2), ("part", Value.str "Ba")]]
        = wsPerf) ∧
    (bulk_insert_performances wsPerf
        [[("band_id", Value.int 10), ("member_id", Value.int 1), ("part", Value.str "Gt")],
         [("band_id", Value.int 10), ("member_id", Value.int 2), ("part", Value.str "Ba")]]).cells.length
      = wsPerf.cells.length + 2 ∧
    (∀ m ∈ numericIds wsPerf, m < get_next_id wsPerf) ∧
    (get_next_id wsPerf = 1 ∨ get_next_id wsPerf - 1 ∈ numericIds wsPerf) ∧
    ((bulk_insert_performances wsPerf
        [[("band_id", Value.int 10), ("member_id", Value.int 1), ("part", Value.str "Gt")],
         [("band_id", Value.int 10), ("member_id", Value.int 2), ("part", Value.str "Ba")]]).cells.drop
          wsPerf.cells.length).map
        (fun row => row[(header wsPerf).indexOf "id"]?)
      = (List.range 2).map
          (fun i => some (Value.int ((get_next_id wsPerf + i : Nat) : Int))) :=
  C9_bulk_insert_ids wsPerf
    [[("band_id", Value.int 10), ("member_id", Value.int 1), ("part", Value.str "Gt")],
     [("band_id", Value.int 10), ("member_id", Value.int 2), ("part", Value.str "Ba")]]
    (by decide)

/-! C8: band registration. -/

/-- C8: a blank artist name is a validation failure with no mutation of
either table; a non-blank artist name appends exactly one band row
(whose id cell is the allocated band id) and one performance row per
selected member, each carrying the new band id, that member's id, and
the part chosen for that member. -/
theorem C8_register_band (st : DBState) (is_uso : Bool) (r_year : Int)
    (r_event r_artist r_song r_desc : String) (temp_mems : List TempMem)
    (hidb : "id" ∈ header st.bands)
    (hcb : "band_id" ∈ header st.performances)
    (hcm : "member_id" ∈ header st.performances)
    (hcp : "part" ∈ header st.performances) :
    (r_artist = "" →
      saveBand st is_uso r_year r_event r_artist r_song r_desc temp_mems
        = (st, false)) ∧
    (r_artist ≠ "" →
      (saveBand st is_uso r_year r_event r_artist r_song r_desc temp_mems).2
          = true ∧
      (∃ brow,
        (saveBand st is_uso r_year r_event r_artist r_song r_desc
            temp_mems).1.bands.cells = st.bands.cells ++ [brow] ∧
        brow[(header st.bands).indexOf "id"]? =
          some (.int (get_next_id st.bands : Int))) ∧
      (saveBand st is_uso r_year r_event r_artist r_song r_desc
          temp_mems).1.performances.cells.length
        = st.performances.cells.length + temp_mems.length ∧
      (((saveBand st is_uso r_year r_event r_artist r_song r_desc
            temp_mems).1.performances.cells.drop
          st.performances.cells.length).map
          (fun row => row[(header st.performances).indexOf "band_id"]?)
        = temp_mems.map (fun _ =>
            some (Value.int (get_next_id st.bands : Int)))) ∧
      (((saveBand st is_uso r_year r_event r_artist r_song r_desc
            temp_mems).1.performances.cells.drop
          st.performances.cells.length).map
          (fun row => row[(header st.performances).indexOf "member_id"]?)
        = temp_mems.map (fun m => some (Value.int m.id))) ∧
      (((saveBand st is_uso r_year r_event r_artist r_song r_desc
            temp_mems).1.performances.cells.drop
          st.performances.cells.length).map
          (fun row => row[(header st.performances).indexOf "part"]?)
        = temp_mems.map (fun m => some (Value.str m.part)))) := by
  constructor
  · intro h
    simp [saveBand, h]
  · intro h
    have hsb : saveBand st is_uso r_year r_event r_artist r_song r_desc temp_mems
        = ({ bands := (add_row st.bands
              [("year", .int r_year), ("event_type", .str r_event),
               ("band_name", .str ""), ("artist_name", .str r_artist),
               ("song_name", .str r_song), ("description", .str r_desc),
               ("is_uso", .bool is_uso)]).1,
             performances := bulk_insert_performances st.performances
               (temp_mems.map (fun m =>
                 [("band_id", Value.int ((get_next_id st.bands : Nat) : Int)),
                  ("member_id", Value.int m.id),
                  ("part", Value.str m.part)])) }, true) := by
      simp [saveBand, h, add_row]
    rw [hsb]
    refine ⟨rfl, ⟨(header st.bands).map (fun hh => coerceVal
        ((dictGet (dictSet
            [("year", .int r_year), ("event_type", .str r_event),
             ("band_name", .str ""), ("artist_name", .str r_artist),
             ("song_name", .str r_song), ("description", .str r_desc),
             ("is_uso", .bool is_uso)] "id"
            (.int (get_next_id st.bands : Int))) hh).getD (.str ""))),
        rfl, ?_⟩, ?_, ?_, ?_, ?_⟩
    · rw [get?_map_indexOf _ _ _ hidb]
      simp [dictGet_dictSet, coerceVal]
    · by_cases ht : temp_mems = []
      · simp [ht, bulk_insert_performances]
      · have hne : (temp_mems.map (fun m =>
            [("band_id", Value.int ((get_next_id st.bands : Nat) : Int)),
             ("member_id", Value.int m.id),
             ("part", Value.str m.part)])).isEmpty = false := by
          simp [ht]
        simp [bulk_insert_performances, hne, buildBulkRows_length]
    · by_cases ht : temp_mems = []
      · simp [ht, bulk_insert_performances]
      · have hne : (temp_mems.map (fun m =>
            [("band_id", Value.int ((get_next_id st.bands : Nat) : Int)),
             ("member_id", Value.int m.id),
             ("part", Value.str m.part)])).isEmpty = false := by
          simp [ht]
        simp only [bulk_insert_performances, hne, Bool.false_eq_true, if_false]
        rw [List.drop_left, buildBulkRows_map_col _ _ hcb (by decide),
          List.map_map]
        apply List.map_congr_left
        intro m _
        rfl
    · by_cases ht : temp_mems = []
      · simp [ht, bulk_insert_performances]
      · have hne : (temp_mems.map (fun m =>
            [("band_id", Value.int ((get_next_id st.bands : Nat) : Int)),
             ("member_id", Value.int m.id),
             ("part", Value.str m.part)])).isEmpty = false := by
          simp [ht]
        simp only [bulk_insert_performances, hne, Bool.false_eq_true, if_false]
        rw [List.drop_left, buildBulkRows_map_col _ _ hcm (by decide),
          List.map_map]
        apply List.map_congr_left
        intro m _
        rfl
    · by_cases ht : temp_mems = []
      · simp [ht, bulk_insert_performances]
      · have hne : (temp_mems.map (fun m =>
            [("band_id", Value.int ((get_next_id st.bands : Nat) : Int)),
             ("member_id", Value.int m.id),
             ("part", Value.str m.part)])).isEmpty = false := by
          simp [ht]
        simp only [bulk_insert_performances, hne, Bool.false_eq_true, if_false]
        rw [List.drop_left, buildBulkRows_map_col _ _ hcp (by decide),
          List.map_map]
        apply List.map_congr_left
        intro m _
        rfl

/-- C8 witness: registering a band with one selected member against the
sample database state. -/
theorem C8_witness :
    ("" = "" →
      saveBand dbA false 2024 "新歓" "" "S" "D" [⟨1, "A", "Gt"⟩]
        = (dbA, false)) ∧
    ("" ≠ "" →
      (saveBand dbA false 2024 "新歓" "" "S" "D" [⟨1, "A", "Gt"⟩]).2 = true ∧
      (∃ brow,
        (saveBand dbA false 2024 "新歓" "" "S" "D"
            [⟨1, "A", "Gt"⟩]).1.bands.cells = dbA.bands.cells ++ [brow] ∧
        brow[(header dbA.bands).indexOf "id"]? =
          some (.int (get_next_id dbA.bands : Int))) ∧
      (saveBand dbA false 2024 "新歓" "" "S" "D"
          [⟨1, "A", "Gt"⟩]).1.performances.cells.length
        = dbA.performances.cells.length + 1 ∧
      (((saveBand dbA false 2024 "新歓" "" "S" "D"
            [⟨1, "A", "Gt"⟩]).1.performances.cells.drop
          dbA.performances.cells.length).map
          (fun row => row[(header dbA.performances).indexOf "band_id"]?)
        = [some (Value.int (get_next_id dbA.bands : Int))]) ∧
      (((saveBand dbA false 2024 "新歓" "" "S" "D"
            [⟨1, "A", "Gt"⟩]).1.performances.cells.drop
          dbA.performances.cells.length).map
          (fun row => row[(header dbA.performances).indexOf "member_id"]?)
        = [some (Value.int 1)]) ∧
      (((saveBand dbA false 2024 "新歓" "" "S" "D"
            [⟨1, "A", "Gt"⟩]).1.performances.cells.drop
          dbA.performances.cells.length).map
          (fun row => row[(header dbA.performances).indexOf "part"]?)
        = [some (Value.str "Gt")])) :=
  C8_register_band dbA false 2024 "新歓" "" "S" "D" [⟨1, "A", "Gt"⟩]
    (by decide) (by decide) (by decide) (by decide)

/-! `find` (column scan) lemmas. -/

/-- A string absent from the scanned column is never found. -/
lemma findPos_eq_none (t : String) :
    ∀ l : List String, t ∉ l → findPos t l = none := by
  intro l
  induction l with
  | nil => intro _; rfl
  | cons s rest ih =>
    intro h
    have hts : ¬ t = s := fun e => h (List.mem_cons.2 (Or.inl e))
    have hs : (s == t) = false := by
      simp only [beq_eq_false_iff_ne]
      exact fun e => hts e.symm
    unfold findPos
    rw [if_neg (by simp [hs]), ih (fun hm => h (List.mem_cons_of_mem _ hm))]
    rfl

/-- A found position holds the target, and no earlier position does. -/
lemma findPos_some_spec (t : String) :
    ∀ (l : List String) (i : Nat), findPos t l = some i →
      l.get? i = some t ∧ ∀ j < i, l.get? j ≠ some t := by
  intro l
  induction l with
  | nil => intro i h; cases h
  | cons s rest ih =>
    intro i h
    unfold findPos at h
    by_cases hs : (s == t) = true
    · rw [if_pos hs] at h
      have hi : i = 0 := by
        injection h with h0
        exact h0.symm
      subst hi
      have hst : s = t := by simpa using hs
      exact ⟨by simp [hst], fun j hj => absurd hj (by omega)⟩
    · rw [if_neg hs] at h
      cases hrest : findPos t rest with
      | none =>
        rw [hrest] at h
        cases h
      | some i' =>
        rw [hrest] at h
        have hi : i = i' + 1 := by
          have h' : some (i' + 1) = some i := h
          injection h' with h0
          exact h0.symm
        subst hi
        obtain ⟨h1, h2⟩ := ih i' hrest
        constructor
        · simpa using h1
        · intro j hj
          cases j with
          | zero =>
            simp only [List.get?_cons_zero, ne_eq, Option.some.injEq]
            exact fun e => hs (by simp [e])
          | succ j' =>
            simpa using h2 j' (by omega)

/-- A present string is found at some position. -/
lemma findPos_mem (t : String) :
    ∀ l : List String, t ∈ l → ∃ i, findPos t l = some i := by
  intro l
  induction l with
  | nil => intro h; cases h
  | cons s rest ih =>
    intro h
    by_cases hs : (s == t) = true
    · exact ⟨0, by unfold findPos; rw [if_pos hs]⟩
    · have ht : t ∈ rest := by
        rcases List.mem_cons.1 h with e | hr
        · exact absurd (by simp [e]) hs
        · exact hr
      obtain ⟨i, hi⟩ := ih ht
      exact ⟨i + 1, by unfold findPos; rw [if_neg hs, hi]; rfl⟩

/-- The scanned column is the header's first cell followed by the id
column (or everything is empty). -/
lemma col1Strs_eq (ws : Worksheet) :
    col1Strs ws = valueToStr ((ws.cells.headD []).headD (.str "")) :: idCol ws
      ∨ (ws.cells = [] ∧ col1Strs ws = [] ∧ idCol ws = []) := by
  cases h : ws.cells with
  | nil => exact Or.inr ⟨rfl, by simp [col1Strs, h], by simp [idCol, h]⟩
  | cons c rest => exact Or.inl (by simp [col1Strs, idCol, h])

/-! C10: update/delete by id. -/

/-- C10: updating or deleting by an id whose string is not in the id
column returns `false` and leaves the worksheet unchanged; a present id
makes `update_row` return `true`, and makes `delete_row` return `true`
after removing exactly the first data row holding that id.  (The
hypothesis records that the header's first cell is not the searched id
string — in the application it is the column label "id".) -/
theorem C10_missing_id_is_noop (ws : Worksheet) (target_id : Int)
    (upd : List (String × Value))
    (hhd : valueToStr ((ws.cells.headD []).headD (.str "")) ≠ toString target_id) :
    (toString target_id ∉ idCol ws →
      update_row ws target_id upd = (ws, false) ∧
      delete_row ws target_id = (ws, false)) ∧
    (toString target_id ∈ idCol ws →
      (update_row ws target_id upd).2 = true ∧
      ∃ i, (idCol ws).get? i = some (toString target_id) ∧
        (∀ j < i, (idCol ws).get? j ≠ some (toString target_id)) ∧
        delete_row ws target_id = ({ cells := ws.cells.eraseIdx (i + 1) }, true)) := by
  constructor
  · intro hnot
    have hfind : findPos (toString target_id) (col1Strs ws) = none := by
      apply findPos_eq_none
      rcases col1Strs_eq ws with hc | ⟨_, hc, _⟩
      · rw [hc]
        intro hm
        rcases List.mem_cons.1 hm with e | hr
        · exact hhd e.symm
        · exact hnot hr
      · rw [hc]
        exact List.not_mem_nil _
    constructor
    · unfold update_row
      rw [hfind]
    · unfold delete_row
      rw [hfind]
  · intro hmem
    obtain ⟨i, hi⟩ := findPos_mem _ _ hmem
    obtain ⟨hget, hmin⟩ := findPos_some_spec _ _ _ hi
    have hfind : findPos (toString target_id) (col1Strs ws) = some (i + 1) := by
      rcases col1Strs_eq ws with hc | ⟨_, _, hic⟩
      · rw [hc]
        unfold findPos
        rw [if_neg (by simp only [beq_iff_eq]; exact hhd), hi]
        rfl
      · rw [hic] at hmem
        cases hmem
    refine ⟨?_, i, hget, hmin, ?_⟩
    · unfold update_row
      rw [hfind]
    · unfold delete_row
      rw [hfind]

/-- C10 witness: id 3 is present in the sample bands worksheet; id 4 is
settled by the same theorem applied elsewhere through the membership
hypothesis. -/
theorem C10_witness :
    (toString (3 : Int) ∉ idCol wsBands →
      update_row wsBands 3 [("artist_name", .str "Q")] = (wsBands, false) ∧
      delete_row wsBands 3 = (wsBands, false)) ∧
    (toString (3 : Int) ∈ idCol wsBands →
      (update_row wsBands 3 [("artist_name", .str "Q")]).2 = true ∧
      ∃ i, (idCol wsBands).get? i = some (toString (3 : Int)) ∧
        (∀ j < i, (idCol wsBands).get? j ≠ some (toString (3 : Int))) ∧
        delete_row wsBands 3 = ({ cells := wsBands.cells.eraseIdx (i + 1) }, true)) :=
  C10_missing_id_is_noop wsBands 3 [("artist_name", .str "Q")] (by decide)

/-! C6: the band grouping is sorted descending by (year, band id). -/

/-- The final sort comparator is transitive. -/
lemma sumLe_trans : ∀ a b c : BandSummary,
    sumLe a b = true → sumLe b c = true → sumLe a c = true := by
  intro a b c hab hbc
  simp only [sumLe, Bool.or_eq_true, Bool.and_eq_true, decide_eq_true_eq,
    beq_iff_eq] at *
  omega

/-- The final sort comparator is total. -/
lemma sumLe_total : ∀ a b : BandSummary, (sumLe a b || sumLe b a) = true := by
  intro a b
  simp only [sumLe, Bool.or_eq_true, Bool.and_eq_true, decide_eq_true_eq,
    beq_iff_eq]
  omega

/-- What an enriched row says about its band side: the row carries the
performance's `band_id`, and its band columns are either the sentinel
block (no band matched) or the columns of some matching band. -/
lemma mem_enrichRow_band (mems : List Member) (bands : List Band)
    (p : Performance) (r : EnrichedRow) (hr : r ∈ enrichRow mems bands p) :
    r.band_id = p.band_id ∧
    ((bands.filter (fun b => b.id == p.band_id) = [] ∧
        r.year_b = none ∧ r.event_type = none ∧ r.artist_name = "不明" ∧
        r.song_name = "不明" ∧ r.description = "") ∨
      (∃ b ∈ bands, b.id = p.band_id ∧ r.year_b = some b.year ∧
        r.event_type = some b.event_type ∧ r.artist_name = b.artist_name ∧
        r.song_name = b.song_name ∧ r.description = b.description)) := by
  unfold enrichRow at hr
  obtain ⟨m?, _, hr2⟩ := List.mem_flatMap.1 hr
  obtain ⟨b?, hbopt, he⟩ := List.mem_map.1 hr2
  subst he
  refine ⟨rfl, ?_⟩
  cases hfb : bands.filter (fun b => b.id == p.band_id) with
  | nil =>
    rw [hfb] at hbopt
    have hbn : b? = none := by simpa [optList] using hbopt
    subst hbn
    exact Or.inl ⟨rfl, by simp [mkEnriched], by simp [mkEnriched],
      by simp [mkEnriched], by simp [mkEnriched], by simp [mkEnriched]⟩
  | cons b t =>
    rw [hfb] at hbopt
    simp only [optList, List.mem_map] at hbopt
    obtain ⟨b2, hb2, he2⟩ := hbopt
    subst he2
    have hb2' : b2 ∈ bands.filter (fun b => b.id == p.band_id) := by
      rw [hfb]
      exact hb2
    have hb2mem := (List.mem_filter.1 hb2').1
    have hb2id : b2.id = p.band_id := by
      simpa using (List.mem_filter.1 hb2').2
    exact Or.inr ⟨b2, hb2mem, hb2id, by simp [mkEnriched], by simp [mkEnriched],
      by simp [mkEnriched], by simp [mkEnriched], by simp [mkEnriched]⟩

/-- With unique band ids, the band columns of the enriched set are a
function of `band_id` — two enriched rows of the same band agree on
the whole grouping key. -/
lemma enrich_bandKey_fd (mems : List Member) (bands : List Band)
    (perfs : List Performance)
    (hb : List.Pairwise (fun b b' => b.id ≠ b'.id) bands) :
    ∀ r ∈ enrich mems bands perfs, ∀ r' ∈ enrich mems bands perfs,
      r.band_id = r'.band_id → bandKey r = bandKey r' := by
  intro r hr r' hr' hband
  by_cases hg : (mems.isEmpty || bands.isEmpty || perfs.isEmpty) = true
  · rw [enrich, if_pos hg] at hr
    cases hr
  · rw [enrich, if_neg hg] at hr hr'
    obtain ⟨p, _, hrp⟩ := List.mem_flatMap.1 hr
    obtain ⟨p', _, hrp'⟩ := List.mem_flatMap.1 hr'
    obtain ⟨hid, hcase⟩ := mem_enrichRow_band mems bands p r hrp
    obtain ⟨hid', hcase'⟩ := mem_enrichRow_band mems bands p' r' hrp'
    have hpp : p.band_id = p'.band_id := by
      rw [← hid, ← hid', hband]
    rcases hcase with ⟨hnil, hy, he, ha, hs, hd⟩ | ⟨b, hbm, hbid, hy, he, ha, hs, hd⟩
    · rcases hcase' with ⟨_, hy', he', ha', hs', hd'⟩ | ⟨b', hbm', hbid', _, _, _, _, _⟩
      · simp [bandKey, hy, he, ha, hs, hd, hy', he', ha', hs', hd', hband]
      · exfalso
        have : b' ∈ bands.filter (fun b => b.id == p.band_id) :=
          List.mem_filter.2 ⟨hbm', by simp [hbid', hpp]⟩
        rw [hnil] at this
        cases this
    · rcases hcase' with ⟨hnil', _, _, _, _, _⟩ | ⟨b', hbm', hbid', hy', he', ha', hs', hd'⟩
      · exfalso
        have : b ∈ bands.filter (fun b => b.id == p'.band_id) :=
          List.mem_filter.2 ⟨hbm, by simp [hbid, hpp]⟩
        rw [hnil'] at this
        cases this
      · have hbb : b = b' := by
          by_contra hne
          exact (List.Pairwise.forall (fun {x y} h => Ne.symm h) hb hbm hbm' hne)
            (by rw [hbid, hbid', hpp])
        subst hbb
        simp [bandKey, hy, he, ha, hs, hd, hy', he', ha', hs', hd', hband]

/-- Functional dependency of the grouping key on `band_id` forces the
grouped output to be strictly descending on (year, band id). -/
lemma groupByBand_pairwise_strict (rows : List EnrichedRow)
    (hfd : ∀ r ∈ rows, ∀ r' ∈ rows, r.band_id = r'.band_id →
      bandKey r = bandKey r') :
    List.Pairwise (fun a b => b.year_b < a.year_b ∨
      (b.year_b = a.year_b ∧ b.band_id < a.band_id)) (groupByBand rows) := by
  unfold groupByBand
  have hsorted := List.sorted_mergeSort sumLe_trans sumLe_total
    ((((rows.filter (fun r => r.year_b.isSome && r.event_type.isSome)).map
      bandKey).dedup.mergeSort keyLe).map
        (mkSummary (rows.filter (fun r => r.year_b.isSome && r.event_type.isSome))))
  have hnd : (((rows.filter (fun r => r.year_b.isSome && r.event_type.isSome)).map
      bandKey).dedup.mergeSort keyLe).Nodup :=
    (List.mergeSort_perm _ keyLe).symm.nodup (List.nodup_dedup _)
  have hkmem : ∀ k ∈ ((rows.filter (fun r => r.year_b.isSome &&
      r.event_type.isSome)).map bandKey).dedup.mergeSort keyLe,
      ∃ r ∈ rows.filter (fun r => r.year_b.isSome && r.event_type.isSome),
        bandKey r = k := by
    intro k hk
    have hk2 : k ∈ ((rows.filter (fun r => r.year_b.isSome &&
        r.event_type.isSome)).map bandKey).dedup :=
      (List.mergeSort_perm _ keyLe).subset hk
    obtain ⟨r, hr, he⟩ := List.mem_map.1 (List.mem_dedup.1 hk2)
    exact ⟨r, hr, he⟩
  have hinj : ∀ k ∈ ((rows.filter (fun r => r.year_b.isSome &&
      r.event_type.isSome)).map bandKey).dedup.mergeSort keyLe,
      ∀ k' ∈ ((rows.filter (fun r => r.year_b.isSome &&
        r.event_type.isSome)).map bandKey).dedup.mergeSort keyLe,
      k.1 = k'.1 → k = k' := by
    intro k hk k' hk' h1
    obtain ⟨r, hr, he⟩ := hkmem k hk
    obtain ⟨r', hr', he'⟩ := hkmem k' hk'
    have e1 : r.band_id = k.1 := by rw [← he]; rfl
    have e2 : r'.band_id = k'.1 := by rw [← he']; rfl
    have hbd : r.band_id = r'.band_id := e1.trans (h1.trans e2.symm)
    have := hfd r (List.mem_filter.1 hr).1 r' (List.mem_filter.1 hr').1 hbd
    rw [← he, ← he', this]
  have hpw_keys : List.Pairwise (fun k k' :
      Int × Int × String × String × String × String => k.1 ≠ k'.1)
      (((rows.filter (fun r => r.year_b.isSome && r.event_type.isSome)).map
        bandKey).dedup.mergeSort keyLe) := by
    refine List.Pairwise.imp_of_mem ?_ hnd
    intro a b ha hb hne h1
    exact hne (hinj a ha b hb h1)
  have hpw_sums : List.Pairwise (fun s s' : BandSummary =>
      s.band_id ≠ s'.band_id)
      ((((rows.filter (fun r => r.year_b.isSome && r.event_type.isSome)).map
        bandKey).dedup.mergeSort keyLe).map
          (mkSummary (rows.filter (fun r => r.year_b.isSome &&
            r.event_type.isSome)))) :=
    List.pairwise_map.2 (hpw_keys.imp (fun {a b} h => by
      simpa [mkSummary] using h))
  have hpw_out : List.Pairwise (fun s s' : BandSummary =>
      s.band_id ≠ s'.band_id)
      (((((rows.filter (fun r => r.year_b.isSome && r.event_type.isSome)).map
        bandKey).dedup.mergeSort keyLe).map
          (mkSummary (rows.filter (fun r => r.year_b.isSome &&
            r.event_type.isSome)))).mergeSort sumLe) :=
    (List.Perm.pairwise_iff (fun {x y} h => h.symm)
      (List.mergeSort_perm _ sumLe)).2 hpw_sums
  refine (hsorted.and hpw_out).imp ?_
  intro a b hab
  obtain ⟨hle, hne⟩ := hab
  simp only [sumLe, Bool.or_eq_true, Bool.and_eq_true, decide_eq_true_eq,
    beq_iff_eq] at hle
  rcases hle with h | ⟨he, hle2⟩
  · exact Or.inl h
  · exact Or.inr ⟨he, lt_of_le_of_ne hle2 (fun e => hne e.symm)⟩

/-- C6: over any filtered enrichment of collections whose band ids are
unique, the grouped band summaries are strictly descending by
(year, band id): larger years first, larger band ids first within a
year. -/
theorem C6_grouped_output_sorted (c : Criteria) (mems : List Member)
    (bands : List Band) (perfs : List Performance)
    (hb : List.Pairwise (fun b b' => b.id ≠ b'.id) bands) :
    List.Pairwise (fun a b => b.year_b < a.year_b ∨
      (b.year_b = a.year_b ∧ b.band_id < a.band_id))
      (groupByBand (applyFilters c (enrich mems bands perfs))) := by
  apply groupByBand_pairwise_strict
  intro r hr r' hr' hband
  exact enrich_bandKey_fd mems bands perfs hb r (mem_of_applyFilters hr)
    r' (mem_of_applyFilters hr') hband

/-- C6 witness: two bands, two performances, wildcard criteria. -/
theorem C6_witness :
    List.Pairwise (fun a b => b.year_b < a.year_b ∨
      (b.year_b = a.year_b ∧ b.band_id < a.band_id))
      (groupByBand (applyFilters critAll
        (enrich [memA] [bandA, bandAbc] [perfA, perfDangling]))) :=
  C6_grouped_output_sorted critAll [memA] [bandA, bandAbc]
    [perfA, perfDangling] (by decide)
